import Mathlib

/-!
Verification of the `splunk_logging` client library: the HEC forwarder's
retry-with-backoff logic (`splunk_logging/forwarders.py`), timestamp
normalization, envelope construction, batch forwarding, the JSON formatter
(`splunk_logging/formatters.py`) and the logging-handler adapter
(`splunk_logging/handlers.py`), shallowly embedded in Lean.
-/

set_option autoImplicit false

namespace SplunkLogging

/-! ## Retry policy (`HecForwarder._client_retry`, forwarders.py lines 94-120) -/

/-- The retryable status codes of `_client_retry` (forwarders.py lines 104-109):
`REQUEST_TIMEOUT` 408, `TOO_MANY_REQUESTS` 429, `INTERNAL_SERVER_ERROR` 500,
`SERVICE_UNAVAILABLE` 503. -/
def retry_codes : List Nat := [408, 429, 500, 503]

/-- `httpx.Response.is_success`: a 2xx status. `Response.raise_for_status()` raises
`httpx.HTTPStatusError` exactly when the status is not a success. -/
def isSuccess (status : Nat) : Bool := 200 ≤ status && status < 300

/-- A client-error or server-error status (4xx or 5xx). -/
def isClientOrServerError (status : Nat) : Bool := 400 ≤ status && status < 600

/-- An outbound HTTP request. The retry hook resends `response.request`, the very
request object the response came from, so the resend has the same method, URL,
headers and body. -/
structure Request where
  method : String
  url : String
  headers : List (String × String)
  body : String
  deriving Repr, DecidableEq

/-- An HTTP response, as seen by the response event hook: its status code and the
request that produced it. -/
structure Response where
  status : Nat
  request : Request
  deriving Repr, DecidableEq

/-- The mutable attributes `_client_retry` reads and writes on the shared
`httpx.Client` (forwarders.py lines 89-91): `backoff_factor`, `max_retries` and the
per-connection counter `retry_attempt`. -/
structure HecClient where
  backoff_factor : ℚ
  max_retries : Nat
  retry_attempt : Nat
  deriving Repr, DecidableEq

/-- The client state created by `HecForwarder._create_client` (forwarders.py lines
89-91): `backoff_factor = 1`, `max_retries = 3`, `retry_attempt = 0`. -/
def defaultClient : HecClient := ⟨1, 3, 0⟩

/-- The externally visible action of one firing of the `_client_retry` hook. -/
inductive HookAction where
  /-- sleep `sleep` seconds, then resend request `req` on the same client -/
  | resend (sleep : ℚ) (req : Request)
  /-- `response.raise_for_status()` raised `HTTPStatusError` carrying `resp` -/
  | raised (resp : Response)
  /-- returned normally -/
  | done
  deriving Repr, DecidableEq

/-- Shallow embedding of one firing of `HecForwarder._client_retry`
(forwarders.py lines 94-120) on response `resp`, as a pure state transformation of
the client. `jitter a` stands for the random draw `random.uniform(0, a)` made when
the current attempt counter is `a`; a faithful jitter satisfies
`0 ≤ jitter a ≤ a`. If the status is retryable and `retry_attempt < max_retries`,
the hook sleeps `backoff_factor * 2 ^ retry_attempt + jitter retry_attempt`
seconds, increments `retry_attempt` and resends `resp.request`; otherwise it
resets `retry_attempt` to 0 and calls `resp.raise_for_status()`. -/
def clientRetry (jitter : Nat → ℚ) (c : HecClient) (resp : Response) :
    HookAction × HecClient :=
  if resp.status ∈ retry_codes ∧ c.retry_attempt < c.max_retries then
    (HookAction.resend (c.backoff_factor * 2 ^ c.retry_attempt + jitter c.retry_attempt)
       resp.request,
     { c with retry_attempt := c.retry_attempt + 1 })
  else
    let c' := { c with retry_attempt := 0 }
    if isSuccess resp.status then (HookAction.done, c')
    else (HookAction.raised resp, c')

/-- The outcome of `httpx.Client.send` with the `_client_retry` response hook
attached: `outcome` is `Except.error s` when some (possibly nested) hook firing
raised `HTTPStatusError` for a response with status `s`, and `Except.ok s` when
`send` returned a response with status `s` — necessarily the FIRST response of
this send, because an event hook cannot replace the response it was handed;
`client` is the final client state and `sent` the total number of requests sent
so far. -/
structure SendResult where
  outcome : Except Nat Nat
  client : HecClient
  sent : Nat
  deriving Repr

/-- Worker for `clientSend`, structurally recursive on the remaining retry budget
`k = max_retries - retry_attempt` (the hook condition `retry_attempt < max_retries`
is exactly `0 < k`, and incrementing `retry_attempt` decrements the budget, so the
two presentations coincide; `clientSend_hook` below proves the correspondence with
`clientRetry`). `server n` is the status code the collector answers to the `n`-th
request overall, and `sent` counts the requests already sent. -/
def clientSendGo (server : Nat → Nat) : Nat → HecClient → Nat → SendResult
  | 0, c, sent =>
    -- retry budget exhausted: the hook resets the counter and raises for status
    let status := server sent
    let c' := { c with retry_attempt := 0 }
    if isSuccess status then ⟨Except.ok status, c', sent + 1⟩
    else ⟨Except.error status, c', sent + 1⟩
  | k + 1, c, sent =>
    let status := server sent
    if status ∈ retry_codes then
      -- hook: sleep, increment `retry_attempt`, resend the same request on the
      -- same client; the resend's own response fires the hook again, and its
      -- result is discarded when the hook returns
      let inner := clientSendGo server k { c with retry_attempt := c.retry_attempt + 1 }
          (sent + 1)
      match inner.outcome with
      | Except.error e => ⟨Except.error e, inner.client, inner.sent⟩
      | Except.ok _ => ⟨Except.ok status, inner.client, inner.sent⟩
    else
      let c' := { c with retry_attempt := 0 }
      if isSuccess status then ⟨Except.ok status, c', sent + 1⟩
      else ⟨Except.error status, c', sent + 1⟩

/-- Shallow embedding of `self._client.send` under the `_client_retry` response
event hook: the hook fires on every response, including responses to its own
resends; a successful resend's response is discarded by the hook, and the
original response is what `send` returns. -/
def clientSend (server : Nat → Nat) (c : HecClient) (sent : Nat) : SendResult :=
  clientSendGo server (c.max_retries - c.retry_attempt) c sent

/-- The send-and-check tail of `HecForwarder.forward_event` (forwarders.py lines
205-206): `resp = self._client.post(...)` followed by `resp.raise_for_status()`.
`resp` is the first response of the logical request, whatever the retry hook did
afterwards, so this final check re-examines the first status. -/
def forwardEventSend (server : Nat → Nat) (c : HecClient) : SendResult :=
  let r := clientSend server c 0
  match r.outcome with
  | Except.error e => ⟨Except.error e, r.client, r.sent⟩
  | Except.ok status =>
    if isSuccess status then ⟨Except.ok status, r.client, r.sent⟩
    else ⟨Except.error status, r.client, r.sent⟩

/-- A collector that answers the first two requests with 503 and every later one
with 200, the response sequence `[503, 503, 200]` of the spec's retry property. -/
def server353 : Nat → Nat := fun n => if n < 2 then 503 else 200

/-- `clientSend` agrees with a direct reading of the hook `clientRetry`: sending
performs one request, fires the hook on its response, and either recurses on a
resend (discarding the inner response on success, propagating a raise), raises,
or returns the first status. -/
theorem clientSend_hook (jitter : Nat → ℚ) (server : Nat → Nat) (c : HecClient)
    (sent : Nat) (req : Request) :
    clientSend server c sent =
      match clientRetry jitter c ⟨server sent, req⟩ with
      | (HookAction.resend _ _, c1) =>
        let inner := clientSend server c1 (sent + 1)
        (match inner.outcome with
         | Except.error e => ⟨Except.error e, inner.client, inner.sent⟩
         | Except.ok _ => ⟨Except.ok (server sent), inner.client, inner.sent⟩)
      | (HookAction.raised r, c1) =>
        if isSuccess r.status then ⟨Except.ok r.status, c1, sent + 1⟩
        else ⟨Except.error r.status, c1, sent + 1⟩
      | (HookAction.done, c1) => ⟨Except.ok (server sent), c1, sent + 1⟩ := by
  by_cases h : server sent ∈ retry_codes ∧ c.retry_attempt < c.max_retries
  · have hk : c.max_retries - c.retry_attempt = (c.max_retries - (c.retry_attempt + 1)) + 1 := by
      omega
    simp only [clientRetry, clientSend, hk, clientSendGo, h, if_pos, Response.status]
    simp [h.1, show ({ c with retry_attempt := c.retry_attempt + 1 } : HecClient).max_retries -
      ({ c with retry_attempt := c.retry_attempt + 1 } : HecClient).retry_attempt =
      c.max_retries - (c.retry_attempt + 1) from rfl]
  · simp only [clientRetry, h, if_neg, not_false_iff]
    rcases Nat.lt_or_ge c.retry_attempt c.max_retries with hlt | hge
    · have h1 : server sent ∉ retry_codes := fun hs => h ⟨hs, hlt⟩
      have hk : c.max_retries - c.retry_attempt = (c.max_retries - (c.retry_attempt + 1)) + 1 := by
        omega
      simp only [clientSend, hk, clientSendGo, h1, if_neg, not_false_iff]
      by_cases hs : isSuccess (server sent) <;> simp [hs]
    · have hk : c.max_retries - c.retry_attempt = 0 := by omega
      simp only [clientSend, hk, clientSendGo]
      by_cases hs : isSuccess (server sent) <;> simp [hs]

/-- C1: with `max_retries = 3` and collector responses `[503, 503, 200]` to the
successive sends of one logical request, the code sends exactly 3 requests and
the retry counter ends at 0, as the claim says, but `forward_event` does NOT
return successfully: the hook's successful resend is discarded, `post` returns
the first 503 response, and the final `resp.raise_for_status()` of
`forward_event` raises `HTTPStatusError` for that first response. -/
theorem c1_retry_then_success_still_raises :
    (forwardEventSend server353 defaultClient).outcome = Except.error 503 ∧
    (forwardEventSend server353 defaultClient).sent = 3 ∧
    (forwardEventSend server353 defaultClient).client.retry_attempt = 0 :=
  ⟨rfl, rfl, rfl⟩

/-- On a collector that always answers 503, the send recursion consumes the whole
remaining retry budget `k`, sends `k + 1` requests in total, raises for the final
503, and leaves the retry counter at 0. -/
theorem clientSendGo_all_503 (k : Nat) :
    ∀ (c : HecClient) (sent : Nat),
      clientSendGo (fun _ => 503) k c sent =
        ⟨Except.error 503, { c with retry_attempt := 0 }, sent + k + 1⟩ := by
  induction k with
  | zero => intro c sent; rfl
  | succ k ih =>
    intro c sent
    have hmem : (503 : Nat) ∈ retry_codes := by decide
    simp only [clientSendGo, hmem, if_true, ih]
    congr 1
    omega

/-- C2: if every response to one logical send is status 503 and the counter
starts at 0, `forward_event` fails with `HTTPStatusError` (status 503) after
exactly `max_retries + 1` total send attempts. -/
theorem c2_all_503_exhausts_retries (c : HecClient) (h : c.retry_attempt = 0) :
    (forwardEventSend (fun _ => 503) c).outcome = Except.error 503 ∧
    (forwardEventSend (fun _ => 503) c).sent = c.max_retries + 1 := by
  have hgo := clientSendGo_all_503 (c.max_retries - c.retry_attempt) c 0
  rw [h] at hgo
  simp only [Nat.sub_zero] at hgo
  refine ⟨?_, ?_⟩ <;> simp [forwardEventSend, clientSend, h, hgo]

/-- Witness for C2: the default client (`max_retries = 3`, counter 0) against an
all-503 collector fails with status 503 after exactly 4 sends. -/
theorem c2_witness :
    (forwardEventSend (fun _ => 503) defaultClient).outcome = Except.error 503 ∧
    (forwardEventSend (fun _ => 503) defaultClient).sent = defaultClient.max_retries + 1 :=
  c2_all_503_exhausts_retries defaultClient rfl

/-- C3: the hook resends exactly when the status is retryable and the counter is
below `max_retries`; in that case it sleeps `backoff_factor * 2 ^ attempt +
uniform(0, attempt)` seconds (deterministically `backoff_factor` at attempt 0,
since the jitter draw is then bounded by 0), increments the counter, and resends
the identical request `resp.request` on the same client. -/
theorem c3_retry_hook_behavior (jitter : Nat → ℚ)
    (hj : ∀ n : Nat, 0 ≤ jitter n ∧ jitter n ≤ (n : ℚ))
    (c : HecClient) (resp : Response) :
    ((∃ s r c1, clientRetry jitter c resp = (HookAction.resend s r, c1)) ↔
      resp.status ∈ retry_codes ∧ c.retry_attempt < c.max_retries) ∧
    (resp.status ∈ retry_codes ∧ c.retry_attempt < c.max_retries →
      clientRetry jitter c resp =
        (HookAction.resend
            (c.backoff_factor * 2 ^ c.retry_attempt + jitter c.retry_attempt)
            resp.request,
          { c with retry_attempt := c.retry_attempt + 1 })) ∧
    (c.retry_attempt = 0 → resp.status ∈ retry_codes → 0 < c.max_retries →
      clientRetry jitter c resp =
        (HookAction.resend c.backoff_factor resp.request,
          { c with retry_attempt := 1 })) := by
  refine ⟨⟨?_, ?_⟩, ?_, ?_⟩
  · rintro ⟨s, r, c1, hr⟩
    by_cases hc : resp.status ∈ retry_codes ∧ c.retry_attempt < c.max_retries
    · exact hc
    · exfalso
      simp only [clientRetry, hc, if_false] at hr
      by_cases hs : isSuccess resp.status <;> simp [hs] at hr
  · intro hc
    refine ⟨c.backoff_factor * 2 ^ c.retry_attempt + jitter c.retry_attempt,
      resp.request, { c with retry_attempt := c.retry_attempt + 1 }, ?_⟩
    simp [clientRetry, hc]
  · intro hc
    simp [clientRetry, hc]
  · intro h0 hm hlt
    have hj0 : jitter 0 = 0 := by
      have h1 := (hj 0).1
      have h2 := (hj 0).2
      simp only [Nat.cast_zero] at h2
      linarith
    have hc : resp.status ∈ retry_codes ∧ c.retry_attempt < c.max_retries :=
      ⟨hm, by omega⟩
    simp only [clientRetry, hc, if_true, h0]
    simp [hj0]
    intro hmax
    exact absurd hlt (by omega)

/-- A concrete outbound request, standing for the POST that
`forward_event` issues. -/
def sampleRequest : Request :=
  ⟨"POST", "/services/collector/event", [("Authorization", "Splunk t")], "payload"⟩

/-- Witness for C3: a zero jitter is a valid uniform draw, and on a 503 response
at attempt 0 with the default client the hook sleeps exactly `backoff_factor = 1`
and resends the same request with the counter at 1. -/
theorem c3_witness :
    clientRetry (fun _ => 0) defaultClient ⟨503, sampleRequest⟩ =
      (HookAction.resend 1 sampleRequest, { defaultClient with retry_attempt := 1 }) := by
  have h := c3_retry_hook_behavior (fun _ => 0)
    (fun n => ⟨le_refl 0, Nat.cast_nonneg n⟩) defaultClient ⟨503, sampleRequest⟩
  have h3 := h.2.2 rfl (by decide) (by decide)
  simpa [defaultClient] using h3

/-- C4: on a response that is not retried (non-retryable status, or the retry
budget is exhausted), the hook resets the counter to 0; it raises
`HTTPStatusError` carrying the response when the status is a client or server
error, and returns normally when the status is a success. -/
theorem c4_no_retry_resets_and_raises (jitter : Nat → ℚ) (c : HecClient)
    (resp : Response)
    (h : ¬(resp.status ∈ retry_codes ∧ c.retry_attempt < c.max_retries)) :
    ((clientRetry jitter c resp).2.retry_attempt = 0) ∧
    (isClientOrServerError resp.status = true →
      (clientRetry jitter c resp).1 = HookAction.raised resp) ∧
    (isSuccess resp.status = true →
      (clientRetry jitter c resp).1 = HookAction.done) := by
  refine ⟨?_, ?_, ?_⟩
  · simp only [clientRetry, h, if_false]
    by_cases hs : isSuccess resp.status <;> simp [hs]
  · intro he
    have hs : isSuccess resp.status = false := by
      simp only [isClientOrServerError, Bool.and_eq_true, decide_eq_true_eq] at he
      simp only [isSuccess, Bool.and_eq_false_iff, decide_eq_false_iff_not]
      omega
    simp [clientRetry, h, hs]
  · intro hs
    simp [clientRetry, h, hs]

/-- Witness for C4: a 404 response is not retried; with the default client the
hook leaves the counter at 0 and raises for the 404 response. -/
theorem c4_witness :
    ¬((404 : Nat) ∈ retry_codes ∧
        defaultClient.retry_attempt < defaultClient.max_retries) ∧
    (clientRetry (fun _ => 0) defaultClient ⟨404, sampleRequest⟩).2.retry_attempt = 0 ∧
    (clientRetry (fun _ => 0) defaultClient ⟨404, sampleRequest⟩).1 =
      HookAction.raised ⟨404, sampleRequest⟩ := by
  have hn : ¬((404 : Nat) ∈ retry_codes ∧
      defaultClient.retry_attempt < defaultClient.max_retries) := by decide
  have h := c4_no_retry_resets_and_raises (fun _ => 0) defaultClient
    ⟨404, sampleRequest⟩ hn
  exact ⟨hn, h.1, h.2.1 (by decide)⟩

/-! ## Timestamp normalization (`HecForwarder._parse_timestamp`, forwarders.py
lines 122-148) -/

/-- The dynamic type of the `timeinfo` argument, as `_parse_timestamp` inspects
it: a `datetime` object (represented abstractly by `DT`), an `int`, a `float`
(represented by ℚ), a `str`, or a value of any other type, of which only its
Python truthiness matters. -/
inductive Timeinfo (DT : Type) where
  | dt (d : DT)
  | int (n : Int)
  | float (x : ℚ)
  | str (s : String)
  | other (truthy : Bool)

/-- Python truthiness of a `timeinfo` value, as tested by
`eventtime = eventtime or datetime.now()` (forwarders.py line 183): numbers are
falsy exactly at 0, strings exactly when empty, `datetime` objects never. -/
def Timeinfo.truthy {DT : Type} : Timeinfo DT → Bool
  | .dt _ => true
  | .int n => n ≠ 0
  | .float x => x ≠ 0
  | .str s => s ≠ ""
  | .other t => t

/-- The external time functions `_parse_timestamp` calls, over an abstract type
`DT` of `datetime` objects: `timestamp` is `datetime.timestamp()` (epoch seconds
under the local timezone), `fromtimestamp` is `datetime.fromtimestamp` (local
timezone), `strptime s fmt` is `datetime.strptime(s, fmt)` and `isoparse` is
`dateutil.parser.isoparse`, the latter two returning `none` when parsing raises. -/
structure TimeEnv (DT : Type) where
  timestamp : DT → ℚ
  fromtimestamp : ℚ → DT
  strptime : String → String → Option DT
  isoparse : String → Option DT

/-- Shallow embedding of `HecForwarder._parse_timestamp` (forwarders.py lines
122-148): `datetime` input yields its `timestamp()` directly; `int`/`float` input
is round-tripped through `datetime.fromtimestamp(x).timestamp()`; string input is
parsed with `strptime` when `timefmt` is given, else with `isoparse`; any other
type raises `ValueError` (the spec's `InvalidTimestamp`), as does a string that
fails to parse. -/
def parseTimestamp {DT : Type} (env : TimeEnv DT) (timeinfo : Timeinfo DT)
    (timefmt : Option String) : Except String ℚ :=
  match timeinfo with
  | .dt d => Except.ok (env.timestamp d)
  | .int n => Except.ok (env.timestamp (env.fromtimestamp (n : ℚ)))
  | .float x => Except.ok (env.timestamp (env.fromtimestamp x))
  | .str s =>
    match timefmt with
    | some fmt =>
      match env.strptime s fmt with
      | some d => Except.ok (env.timestamp d)
      | none => Except.error "InvalidTimestamp"
    | none =>
      match env.isoparse s with
      | some d => Except.ok (env.timestamp d)
      | none => Except.error "InvalidTimestamp"
  | .other _ => Except.error "InvalidTimestamp"

/-- C5: case analysis of the timestamp normalizer. A `datetime` yields its epoch
seconds directly; an `int` or `float` yields the epoch seconds of the
local-timezone wall-clock instant rebuilt from the number (not the number passed
through untouched); a string is parsed with the supplied format when given and
with the general ISO-8601 parser otherwise, failing with `InvalidTimestamp` when
parsing fails; every other type fails with `InvalidTimestamp`. -/
theorem c5_parse_timestamp_cases {DT : Type} (env : TimeEnv DT)
    (timefmt : Option String) :
    (∀ d : DT, parseTimestamp env (Timeinfo.dt d) timefmt =
        Except.ok (env.timestamp d)) ∧
    (∀ n : Int, parseTimestamp env (Timeinfo.int n) timefmt =
        Except.ok (env.timestamp (env.fromtimestamp (n : ℚ)))) ∧
    (∀ x : ℚ, parseTimestamp env (Timeinfo.float x) timefmt =
        Except.ok (env.timestamp (env.fromtimestamp x))) ∧
    (∀ s fmt : String, parseTimestamp env (Timeinfo.str s) (some fmt) =
        match env.strptime s fmt with
        | some d => Except.ok (env.timestamp d)
        | none => Except.error "InvalidTimestamp") ∧
    (∀ s : String, parseTimestamp env (Timeinfo.str s) none =
        match env.isoparse s with
        | some d => Except.ok (env.timestamp d)
        | none => Except.error "InvalidTimestamp") ∧
    (∀ b : Bool, parseTimestamp env (Timeinfo.other b) timefmt =
        Except.error "InvalidTimestamp") :=
  ⟨fun _ => rfl, fun _ => rfl, fun _ => rfl, fun _ _ => rfl, fun _ => rfl,
   fun _ => rfl⟩

/-! ## Event envelope (`HecForwarder.forward_event`, forwarders.py lines 150-207) -/

/-- A value stored in the HEC event envelope: the caller's payload under `event`,
a string field, or the `time` field, which the code stores as
`str(self._parse_timestamp(...))`; we keep the numeric epoch value, which that
string renders and parses back to. -/
inductive EnvField where
  | payload (ev : String)
  | str (s : String)
  | time (t : ℚ)
  deriving Repr, DecidableEq

/-- The connection-scoped defaults of a forwarder, set at construction
(forwarders.py lines 67-70): after `__init__`, `default_source`,
`default_sourcetype` and `default_index` are strings (possibly empty) and
`default_host` is a string (falling back to the system hostname). -/
structure ForwarderDefaults where
  default_host : String
  default_source : String
  default_sourcetype : String
  default_index : String
  deriving Repr, DecidableEq

/-- The envelope-building body of `forward_event` (forwarders.py lines 189-201):
`event` always, then `host`/`source`/`sourcetype`/`index` each included exactly
when its effective value is truthy (for strings: non-empty), then `time`. -/
def buildHecEvent (event : String) (host source sourcetype index : String)
    (ts : ℚ) : List (String × EnvField) :=
  [("event", EnvField.payload event)]
    ++ (if host ≠ "" then [("host", EnvField.str host)] else [])
    ++ (if source ≠ "" then [("source", EnvField.str source)] else [])
    ++ (if sourcetype ≠ "" then [("sourcetype", EnvField.str sourcetype)] else [])
    ++ (if index ≠ "" then [("index", EnvField.str index)] else [])
    ++ [("time", EnvField.time ts)]

/-- Shallow embedding of the envelope construction of `forward_event`
(forwarders.py lines 183-201): a falsy `eventtime` argument (or an omitted one,
`none`) is replaced by `datetime.now()` (the `now` argument); per-call
`host`/`source`/`sourcetype`/`index` values (`kwargs.get`) fall back to the
connection defaults; the timestamp is normalized by `_parse_timestamp`, whose
failure aborts the call. -/
def forwardEventEnvelope {DT : Type} (env : TimeEnv DT) (fwd : ForwarderDefaults)
    (event : String) (eventtime : Option (Timeinfo DT)) (timefmt : Option String)
    (host? source? sourcetype? index? : Option String) (now : DT) :
    Except String (List (String × EnvField)) :=
  let et : Timeinfo DT :=
    match eventtime with
    | none => Timeinfo.dt now
    | some t => if t.truthy then t else Timeinfo.dt now
  let host := host?.getD fwd.default_host
  let source := source?.getD fwd.default_source
  let sourcetype := sourcetype?.getD fwd.default_sourcetype
  let index := index?.getD fwd.default_index
  (parseTimestamp env et timefmt).map (buildHecEvent event host source sourcetype index)

/-- The `time` field of a built envelope is present and carries the normalized
epoch value. -/
theorem buildHecEvent_time (event host source sourcetype index : String) (ts : ℚ) :
    ("time", EnvField.time ts) ∈ buildHecEvent event host source sourcetype index ts := by
  simp [buildHecEvent]

/-- A key of a built envelope other than `event` and `time` is present exactly
when it is one of the four optional fields and its effective value is non-empty. -/
theorem buildHecEvent_optional (event host source sourcetype index : String)
    (ts : ℚ) :
    ((∃ v, ("host", v) ∈ buildHecEvent event host source sourcetype index ts) ↔
      host ≠ "") ∧
    ((∃ v, ("source", v) ∈ buildHecEvent event host source sourcetype index ts) ↔
      source ≠ "") ∧
    ((∃ v, ("sourcetype", v) ∈ buildHecEvent event host source sourcetype index ts) ↔
      sourcetype ≠ "") ∧
    ((∃ v, ("index", v) ∈ buildHecEvent event host source sourcetype index ts) ↔
      index ≠ "") := by
  refine ⟨?_, ?_, ?_, ?_⟩ <;>
    · by_cases h1 : host = "" <;> by_cases h2 : source = "" <;>
        by_cases h3 : sourcetype = "" <;> by_cases h4 : index = "" <;>
          simp [buildHecEvent, h1, h2, h3, h4]

/-- Inversion for `Except.map`: a mapped computation returns `ok` exactly when
the underlying one does. -/
theorem except_map_ok {ε α β : Type} (f : α → β) (x : Except ε α) (b : β)
    (h : Except.map f x = Except.ok b) : ∃ a, x = Except.ok a ∧ b = f a := by
  cases x with
  | error e => simp [Except.map] at h
  | ok a =>
    simp only [Except.map, Except.ok.injEq] at h
    exact ⟨a, rfl, h.symm⟩

/-- C6: every envelope `forward_event` builds without failing has its `time`
field present, carrying the normalized epoch value, and each optional field
`host`/`source`/`sourcetype`/`index` present exactly when its effective
(per-call or connection-default) value is non-empty. -/
theorem c6_envelope_invariant {DT : Type} (env : TimeEnv DT)
    (fwd : ForwarderDefaults) (event : String) (eventtime : Option (Timeinfo DT))
    (timefmt : Option String) (host? source? sourcetype? index? : Option String)
    (now : DT) (envl : List (String × EnvField))
    (h : forwardEventEnvelope env fwd event eventtime timefmt
        host? source? sourcetype? index? now = Except.ok envl) :
    (∃ t : ℚ, ("time", EnvField.time t) ∈ envl) ∧
    ((∃ v, ("host", v) ∈ envl) ↔ host?.getD fwd.default_host ≠ "") ∧
    ((∃ v, ("source", v) ∈ envl) ↔ source?.getD fwd.default_source ≠ "") ∧
    ((∃ v, ("sourcetype", v) ∈ envl) ↔ sourcetype?.getD fwd.default_sourcetype ≠ "") ∧
    ((∃ v, ("index", v) ∈ envl) ↔ index?.getD fwd.default_index ≠ "") := by
  simp only [forwardEventEnvelope] at h
  obtain ⟨ts, -, rfl⟩ := except_map_ok _ _ _ h
  have hopt := buildHecEvent_optional event (host?.getD fwd.default_host)
    (source?.getD fwd.default_source) (sourcetype?.getD fwd.default_sourcetype)
    (index?.getD fwd.default_index) ts
  exact ⟨⟨ts, buildHecEvent_time event (host?.getD fwd.default_host)
      (source?.getD fwd.default_source) (sourcetype?.getD fwd.default_sourcetype)
      (index?.getD fwd.default_index) ts⟩,
    hopt.1, hopt.2.1, hopt.2.2.1, hopt.2.2.2⟩

/-- A concrete time environment over `DT := ℚ` in which `timestamp` and
`fromtimestamp` are the identity and no string parses. -/
def sampleTimeEnv : TimeEnv ℚ := ⟨id, id, fun _ _ => none, fun _ => none⟩

/-- The envelope `forward_event` builds for payload "ev", eventtime `5.0`,
defaults `host = "h"`, `sourcetype = "st"`, empty default source and index, and
a per-call `source = "s2"` override. -/
def sampleEnvelope : List (String × EnvField) :=
  [("event", EnvField.payload "ev"), ("host", EnvField.str "h"),
   ("source", EnvField.str "s2"), ("sourcetype", EnvField.str "st"),
   ("time", EnvField.time 5)]

/-- Witness for C6 on a concrete envelope: `time` is present, the non-empty
effective fields `host`/`source`/`sourcetype` are present, the empty effective
`index` is absent. -/
theorem c6_witness :
    (∃ t : ℚ, ("time", EnvField.time t) ∈ sampleEnvelope) ∧
    ((∃ v, ("host", v) ∈ sampleEnvelope) ↔ (Option.getD none "h" : String) ≠ "") ∧
    ((∃ v, ("source", v) ∈ sampleEnvelope) ↔
      (Option.getD (some "s2") "" : String) ≠ "") ∧
    ((∃ v, ("sourcetype", v) ∈ sampleEnvelope) ↔
      (Option.getD none "st" : String) ≠ "") ∧
    ((∃ v, ("index", v) ∈ sampleEnvelope) ↔ (Option.getD none "" : String) ≠ "") :=
  c6_envelope_invariant sampleTimeEnv ⟨"h", "", "st", ""⟩ "ev"
    (some (Timeinfo.float 5)) none none (some "s2") none none 5 sampleEnvelope rfl

/-- C10: a falsy `eventtime` argument — the number 0, the float 0.0 or the empty
string — is treated exactly as an omitted one: `eventtime = eventtime or
datetime.now()` (forwarders.py line 183) replaces it by the current wall-clock
time before normalization, so the Unix epoch instant cannot be specified by
passing numeric 0. -/
theorem c10_falsy_eventtime_is_now {DT : Type} (env : TimeEnv DT)
    (fwd : ForwarderDefaults) (event : String) (timefmt : Option String)
    (host? source? sourcetype? index? : Option String) (now : DT) :
    (forwardEventEnvelope env fwd event (some (Timeinfo.int 0)) timefmt
        host? source? sourcetype? index? now =
      forwardEventEnvelope env fwd event none timefmt
        host? source? sourcetype? index? now) ∧
    (forwardEventEnvelope env fwd event (some (Timeinfo.float 0)) timefmt
        host? source? sourcetype? index? now =
      forwardEventEnvelope env fwd event none timefmt
        host? source? sourcetype? index? now) ∧
    (forwardEventEnvelope env fwd event (some (Timeinfo.str "")) timefmt
        host? source? sourcetype? index? now =
      forwardEventEnvelope env fwd event none timefmt
        host? source? sourcetype? index? now) := by
  refine ⟨?_, ?_, ?_⟩ <;> simp [forwardEventEnvelope, Timeinfo.truthy]

/-! ## Batch forwarding (`HecForwarder.forward_events`, forwarders.py lines
209-245) -/

/-- Shallow embedding of `forward_events`: `fe e t` is the outcome of
`self.forward_event(e, eventtime=t, timefmt=timefmt, **kwargs)` and
`eventtime e` is the caller-supplied per-event timestamp function. The body is
the loop `for event in events: self.forward_event(event,
eventtime=eventtime(event), ...)` (forwarders.py lines 243-244). The result
records, in order, every `forward_event` call made — each as the pair of the
event and the timestamp computed for it by one invocation of `eventtime` —
together with the overall outcome: the loop stops at the first failing call and
re-raises its error. -/
def forwardEvents {α β ε : Type} (fe : α → β → Except ε Unit) (eventtime : α → β) :
    List α → List (α × β) × Except ε Unit
  | [] => ([], Except.ok ())
  | e :: rest =>
    let t := eventtime e
    match fe e t with
    | Except.error er => ([(e, t)], Except.error er)
    | Except.ok _ =>
      let r := forwardEvents fe eventtime rest
      ((e, t) :: r.1, r.2)

/-- C7: `forward_events` calls `forward_event` exactly once per event,
sequentially in input order, computing each event's timestamp by one invocation
of the caller-supplied `eventtime` function; when every call succeeds the batch
succeeds, and when the event at position `i` is the first to fail, the batch
fails with that same error having forwarded exactly the events at positions
`0..i-1` before it and none after it. -/
theorem c7_forward_events_sequential {α β ε : Type} (fe : α → β → Except ε Unit)
    (eventtime : α → β) :
    (∀ events : List α, (∀ e ∈ events, fe e (eventtime e) = Except.ok ()) →
      forwardEvents fe eventtime events =
        (events.map fun e => (e, eventtime e), Except.ok ())) ∧
    (∀ (pre : List α) (bad : α) (post : List α) (er : ε),
      (∀ e ∈ pre, fe e (eventtime e) = Except.ok ()) →
      fe bad (eventtime bad) = Except.error er →
      forwardEvents fe eventtime (pre ++ bad :: post) =
        ((pre ++ [bad]).map fun e => (e, eventtime e), Except.error er)) := by
  constructor
  · intro events
    induction events with
    | nil => intro _; rfl
    | cons e rest ih =>
      intro h
      have he := h e (List.mem_cons_self e rest)
      have hrest := ih fun x hx => h x (List.mem_cons_of_mem e hx)
      simp [forwardEvents, he, hrest]
  · intro pre
    induction pre with
    | nil =>
      intro bad post er _ hbad
      simp [forwardEvents, hbad]
    | cons e rest ih =>
      intro bad post er hpre hbad
      have he := hpre e (List.mem_cons_self e rest)
      have hrest := ih bad post er (fun x hx => hpre x (List.mem_cons_of_mem e hx)) hbad
      simp [forwardEvents, he, hrest]

/-- Witness for C7: forwarding `[0, 1, 2, 3]` with a forwarder that fails on
event 2 with error 7 forwards exactly events 0 and 1, then fails with error 7,
never reaching event 3. -/
theorem c7_witness :
    forwardEvents (fun e (_ : Nat) => if e = 2 then Except.error 7 else Except.ok ())
        (fun e => e + 10) ([0, 1] ++ 2 :: [3]) =
      (([0, 1] ++ [2]).map fun e => (e, e + 10), Except.error 7) :=
  (c7_forward_events_sequential
      (fun e (_ : Nat) => if e = 2 then Except.error 7 else Except.ok ())
      (fun e => e + 10)).2
    [0, 1] 2 [3] 7 (by intro e he; fin_cases he <;> rfl) rfl

/-! ## JSON formatter (`JsonFormatter.format`, formatters.py lines 50-82) -/

/-- A JSON value occurring in a formatted log record: a number or a string. -/
inductive JVal where
  | num (n : Int)
  | str (s : String)
  deriving Repr, DecidableEq

/-- Python truthiness of a JSON value, as used by the pruning comprehension
`if v` (formatters.py line 80): numbers are falsy exactly at 0, strings exactly
when empty. -/
def JVal.truthy : JVal → Bool
  | .num n => n ≠ 0
  | .str s => s ≠ ""

/-- `record.msg`: either a dict (map-style log call) or free text. -/
inductive RecordMsg where
  | map (entries : List (String × JVal))
  | text (s : String)
  deriving Repr, DecidableEq

/-- The log record attributes `JsonFormatter.format` consumes: `record.msg`,
`record.levelname`, and the rendered exception and stack texts
(`formatException(record.exc_info)` / `formatStack(record.stack_info)`),
present exactly when `record.exc_info` / `record.stack_info` are truthy. -/
structure LogRecord where
  msg : RecordMsg
  levelname : String
  exc_text : Option String
  stack_text : Option String
  deriving Repr, DecidableEq

/-- `d[k] = v` on an insertion-ordered dict: replace in place when the key
exists, else append. -/
def dictSet (d : List (String × JVal)) (k : String) (v : JVal) :
    List (String × JVal) :=
  if d.any fun p => p.1 = k then d.map fun p => if p.1 = k then (k, v) else p
  else d ++ [(k, v)]

/-- `d.update(u)` on insertion-ordered dicts: set each entry of `u` in order. -/
def dictUpdate (d : List (String × JVal)) : List (String × JVal) →
    List (String × JVal)
  | [] => d
  | (k, v) :: rest => dictUpdate (dictSet d k v) rest

/-- `k in d` on an insertion-ordered dict. -/
def hasKey (d : List (String × JVal)) (k : String) : Bool :=
  d.any fun p => p.1 = k

/-- Modelled fragment of Python percent-formatting, `template % record.__dict__`
(formatters.py line 77): every default-key template of this library is a single
named conversion `%(name)s`, resolved by looking `name` up in the attribute
dictionary `attrs`. -/
def percentFormat (template : String) (attrs : String → String) : String :=
  if template.take 2 = "%(" ∧ template.takeRight 2 = ")s" then
    attrs ((template.drop 2).dropRight 2)
  else template

/-- The record attribute dictionary `record.__dict__`, restricted to the
attributes the default-key templates reference, each rendered to its string
form; `message` is the value `format` assigned to `record.message` just before
resolving default keys. -/
def LogRecord.attrs (r : LogRecord) (message : String) : String → String :=
  fun k =>
    if k = "levelname" then r.levelname
    else if k = "message" then message
    else ""

/-- Shallow embedding of `JsonFormatter.format` (formatters.py lines 50-82):
start from an empty dict; add `exception` and `stack` when present; for a
map-style call merge the map's entries and set `record.message = ""`, for a
text call set `record.message` to the rendered text; insert each default key,
resolved against the record attributes, only when the key is not already
present; finally, when `prune_keys` is set, drop every entry whose value is
falsy. -/
def JsonFormatter.format (default_keys : List (String × String))
    (prune_keys : Bool) (record : LogRecord) : List (String × JVal) :=
  let json0 : List (String × JVal) := []
  let json1 := match record.exc_text with
    | some t => dictSet json0 "exception" (JVal.str t)
    | none => json0
  let json2 := match record.stack_text with
    | some t => dictSet json1 "stack" (JVal.str t)
    | none => json1
  let step := match record.msg with
    | RecordMsg.map entries => (dictUpdate json2 entries, "")
    | RecordMsg.text s => (json2, s)
  let json4 := default_keys.foldl
    (fun d kv =>
      if hasKey d kv.1 then d
      else dictSet d kv.1 (JVal.str (percentFormat kv.2 (record.attrs step.2))))
    step.1
  if prune_keys then json4.filter fun p => p.2.truthy else json4

/-- C8: with default keys `level = %(levelname)s` and pruning enabled, a
map-valued log call `a = 1, b = 2` at level INFO formats to exactly
`a = 1, b = 2, level = "INFO"`; keys of the input map take precedence over
default keys of the same name; and an empty `message` — which a map-style call
creates — is pruned from the output even when `message` is a declared default
key. -/
theorem c8_formatter_map_call :
    JsonFormatter.format [("level", "%(levelname)s")] true
        ⟨RecordMsg.map [("a", JVal.num 1), ("b", JVal.num 2)], "INFO", none, none⟩ =
      [("a", JVal.num 1), ("b", JVal.num 2), ("level", JVal.str "INFO")] ∧
    JsonFormatter.format [("level", "%(levelname)s")] true
        ⟨RecordMsg.map [("a", JVal.num 1), ("level", JVal.str "custom")], "INFO",
          none, none⟩ =
      [("a", JVal.num 1), ("level", JVal.str "custom")] ∧
    JsonFormatter.format [("level", "%(levelname)s"), ("message", "%(message)s")]
        true ⟨RecordMsg.map [("a", JVal.num 1)], "INFO", none, none⟩ =
      [("a", JVal.num 1), ("level", JVal.str "INFO")] := by
  refine ⟨?_, ?_, ?_⟩ <;> rfl

/-! ## Handler adapter (`HecHandler.emit`, handlers.py lines 90-116) -/

/-- What a call to `HecHandler.emit` does after forwarding: return normally,
having printed the listed exceptions as a side effect, or re-raise an
exception to its caller. -/
inductive EmitResult (ε : Type) where
  | ok (printed : List ε)
  | raised (e : ε)
  deriving Repr

/-- The construction-time default of the `ignore_exceptions` flag
(handlers.py line 37): `True`. -/
def ignoreExceptionsDefault : Bool := true

/-- Shallow embedding of the try/except around `self._hec.forward_event` in
`HecHandler.emit` (handlers.py lines 109-116): `forward` is the outcome of the
forwarding call; on an exception, the handler prints it and returns when
`ignore_exceptions` is set, and re-raises the very same exception otherwise. -/
def HecHandler.emit {ε : Type} (ignore_exceptions : Bool)
    (forward : Except ε Unit) : EmitResult ε :=
  match forward with
  | Except.ok _ => EmitResult.ok []
  | Except.error e =>
    if ignore_exceptions then EmitResult.ok [e] else EmitResult.raised e

/-- C9: when forwarding a record raises, `emit` under the default flag value
catches the error, reports it as a print side effect and returns normally;
with the flag cleared to propagate, `emit` re-raises the same error unmodified. -/
theorem c9_emit_error_handling {ε : Type} (e : ε) :
    HecHandler.emit ignoreExceptionsDefault (Except.error e) = EmitResult.ok [e] ∧
    HecHandler.emit false (Except.error e) = EmitResult.raised e :=
  ⟨rfl, rfl⟩
